import Mathlib

/- Shallow embedding of the Calico sensor-calibration core:
   the camera measurement store and observation identity (camera.h),
   the camera model factory (camera_models.cpp), and the gyroscope
   cost functor (gyroscope_cost_functor.h). -/

/-- Model of a C++ `double`: either NaN or an exact numeric value.
The built-in `==` on doubles is IEEE-754 comparison, modelled by `fp64Eq`
below, under which NaN compares unequal to everything, itself included.
(Signed zeros and infinities are not distinguished; they play no role in
the properties considered here.) -/
inductive FP64 where
  | nan : FP64
  | val : ℚ → FP64
deriving DecidableEq

/-- IEEE-754 `==` on doubles: two numeric values compare by value, and any
comparison involving NaN is false. -/
def fp64Eq : FP64 → FP64 → Bool
  | FP64.val a, FP64.val b => a == b
  | _, _ => false

/-- `ObservationId` from camera.h: {stamp, image_id, model_id, feature_id}. -/
structure ObservationId where
  stamp : FP64
  image_id : ℤ
  model_id : ℤ
  feature_id : ℤ
deriving DecidableEq

/-- `operator==(ObservationId, ObservationId)` from camera.h: conjunction of
the field comparisons, the `double` stamp compared with IEEE `==`. -/
def obsIdEq (lhs rhs : ObservationId) : Bool :=
  fp64Eq lhs.stamp rhs.stamp &&
    lhs.image_id == rhs.image_id &&
    lhs.model_id == rhs.model_id &&
    lhs.feature_id == rhs.feature_id

/-- `AbslHashValue` from camera.h combines exactly the four fields
`(stamp, image_id, model_id, feature_id)` into the hash state; the hash of an
`ObservationId` is therefore a function of this tuple alone. -/
def obsIdHashInput (a : ObservationId) : FP64 × ℤ × ℤ × ℤ :=
  (a.stamp, a.image_id, a.model_id, a.feature_id)

/-- `CameraMeasurement` from camera.h: a pixel and its observation id. -/
structure CameraMeasurement where
  pixel : FP64 × FP64
  id : ObservationId
deriving DecidableEq

/-- The `absl::flat_hash_map<ObservationId, CameraMeasurement>` member
`id_to_measurement_`, modelled as an association list whose key lookups use
the code's `operator==` on `ObservationId` (as the hash map does). -/
abbrev MeasurementStore := List (ObservationId × CameraMeasurement)

/-- Key membership in the store, as `flat_hash_map::contains`: some stored
entry's key compares `==` to the probe key. -/
def containsKey (store : MeasurementStore) (oid : ObservationId) : Bool :=
  store.any fun p => obsIdEq p.1 oid

/-- The error taxonomy relevant to the embedded operations
(absl::Status codes used by camera.h). -/
inductive CalicoError where
  | DuplicateEntry : CalicoError
  | NotFound : CalicoError
  | ConfigurationError : CalicoError
deriving DecidableEq

/-- The concrete camera model variants constructed by `CameraModel::Create`
in camera_models.cpp. -/
inductive CameraModel where
  | OpenCv5Model : CameraModel
  | KannalaBrandtModel : CameraModel
deriving DecidableEq

/-- Modelled from the spec: the `CameraIntrinsicsModel` enum is declared in
camera_models.h, which is not among the sources; the two recognized tags are
the ones named by the switch in camera_models.cpp, and `unrecognizedTag`
covers every other underlying value a C++ scoped enum may carry (the spec:
"unrecognized tags yield an absent model, never a fault"). -/
inductive CameraIntrinsicsModel where
  | kOpenCv5 : CameraIntrinsicsModel
  | kKannalaBrandt : CameraIntrinsicsModel
  | unrecognizedTag : ℤ → CameraIntrinsicsModel
deriving DecidableEq

/-- `CameraModel::Create` from camera_models.cpp: a switch returning a fresh
concrete model for each recognized tag and a null `unique_ptr` (here `none`)
in the default case. It is a total function: no error is signalled. -/
def CameraModel.Create : CameraIntrinsicsModel → Option CameraModel
  | CameraIntrinsicsModel.kOpenCv5 => some CameraModel.OpenCv5Model
  | CameraIntrinsicsModel.kKannalaBrandt => some CameraModel.KannalaBrandtModel
  | _ => none

/-- The slice of the `Camera` class state (camera.h) relevant to the claims:
the owned model pointer and the measurement store. -/
structure Camera where
  camera_model : Option CameraModel
  id_to_measurement : MeasurementStore

/-- Modelled from the spec: `Camera::AddMeasurement` is declared in camera.h
("Returns an error if the measurement's id is duplicated without adding")
and implemented in camera.cpp, which is not among the sources. Per the spec
(§4.1): fails DuplicateEntry if the id is already present, else inserts. -/
def Camera.AddMeasurement (cam : Camera) (m : CameraMeasurement) :
    Except CalicoError Camera :=
  if containsKey cam.id_to_measurement m.id then
    Except.error CalicoError.DuplicateEntry
  else
    Except.ok { cam with id_to_measurement := (m.id, m) :: cam.id_to_measurement }

/-- Modelled from the spec: `Camera::NumberOfMeasurements` (camera.h,
implementation in camera.cpp) returns the current store size. -/
def Camera.NumberOfMeasurements (cam : Camera) : ℕ :=
  cam.id_to_measurement.length

/-- One `AddMeasurement` call as a state transition: a failing call leaves
the camera unchanged. -/
def Camera.applyAdd (cam : Camera) (m : CameraMeasurement) : Camera :=
  match cam.AddMeasurement m with
  | Except.ok cam2 => cam2
  | Except.error _ => cam

/-- A sequence of `AddMeasurement` calls, threading the camera state. -/
def Camera.addAll (cam : Camera) (ms : List CameraMeasurement) : Camera :=
  ms.foldl Camera.applyAdd cam

/-- The number of distinct observation ids in a submitted list, distinctness
taken with respect to the code's `operator==` on `ObservationId` (the spec:
"store count equals the number of distinct ids submitted"). `seen` carries
the ids already encountered. -/
def countNewIds : List ObservationId → List ObservationId → ℕ
  | [], _ => 0
  | oid :: rest, seen =>
    if seen.any fun s => obsIdEq s oid then countNewIds rest seen
    else countNewIds rest (oid :: seen) + 1

/-- Modelled from the spec: the trajectory interface (trajectory.h, not among
the sources) exposes an enumeration of all known timestamps. -/
structure TrajectoryModel where
  timestamps : List ℝ

/-- Whether an `Except` result is a success. -/
def exceptIsOk : Except CalicoError (List CameraMeasurement) → Bool
  | Except.ok _ => true
  | Except.error _ => false

/-- Modelled from the spec: the failable `Camera::Project(interp_times, ...)`
overload (declared in camera.h, implemented in camera.cpp, not among the
sources). Per the spec (§4.3): with no model set it fails ConfigurationError;
otherwise, for each requested time it interpolates the rig pose, composes it
with extrinsics and each landmark, projects through the active model and
keeps only physical results — that per-time synthesis (which depends on the
trajectory and world model) is abstracted as `synth`. -/
def Camera.Project (cam : Camera)
    (synth : CameraModel → ℝ → List CameraMeasurement) (times : List ℝ) :
    Except CalicoError (List CameraMeasurement) :=
  match cam.camera_model with
  | none => Except.error CalicoError.ConfigurationError
  | some mdl => Except.ok (times.flatMap (synth mdl))

/-- Modelled from the spec: the `Camera::Project` overload with no time
argument (camera.h returns a plain `std::vector`, not a `StatusOr`). Per the
spec (§4.3): it enumerates every timestamp known to the trajectory and never
fails, returning an empty list when no model is set. -/
def Camera.ProjectAll (cam : Camera)
    (synth : CameraModel → ℝ → List CameraMeasurement)
    (traj : TrajectoryModel) : List CameraMeasurement :=
  match cam.camera_model with
  | none => []
  | some mdl => traj.timestamps.flatMap (synth mdl)

/- ------------------------------------------------------------------ -/
/- Gyroscope cost functor (gyroscope_cost_functor.h).                  -/
/- ------------------------------------------------------------------ -/

/-- `GyroscopeParameterIndices::kIntrinsicsIndex` from
gyroscope_cost_functor.h. -/
def GyroscopeParameterIndices.kIntrinsicsIndex : ℕ := 0

/-- `GyroscopeParameterIndices::kExtrinsicsRotationIndex`. -/
def GyroscopeParameterIndices.kExtrinsicsRotationIndex : ℕ := 1

/-- `GyroscopeParameterIndices::kExtrinsicsTranslationIndex`. -/
def GyroscopeParameterIndices.kExtrinsicsTranslationIndex : ℕ := 2

/-- `GyroscopeParameterIndices::kLatencyIndex`. -/
def GyroscopeParameterIndices.kLatencyIndex : ℕ := 3

/-- `GyroscopeParameterIndices::kSensorRigPoseSplineControlPointsIndex`:
the source assigns the value 7 to this enumerator. -/
def GyroscopeParameterIndices.kSensorRigPoseSplineControlPointsIndex : ℕ := 7

/-- `TrajectoryEvaluationParams` as captured by the functor (declared in
trajectory.h, not among the sources; fields are the ones the functor reads). -/
structure TrajectoryEvaluationParams where
  stamp : ℝ
  spline_index : ℕ
  knot0 : ℝ
  knot1 : ℝ
  num_control_points : ℕ
  basis_matrix : ℕ → ℕ → ℝ

/-- A trivial `TrajectoryEvaluationParams` record used for concrete
evaluations. -/
def tepZero : TrajectoryEvaluationParams :=
  { stamp := 0, spline_index := 0, knot0 := 0, knot1 := 0
    num_control_points := 1, basis_matrix := fun _ _ => 0 }

/-- The type of `BSpline<Trajectory::kSplineOrder, T>::Evaluate` (declared in
trajectory.h, not among the sources), abstracted: arguments are the sliced
control points (row, column ↦ value), knot0, knot1, the basis matrix, the
evaluation stamp, and the derivative order; the result is a 6-vector. -/
def BSplineEvalT : Type :=
  (ℕ → ℕ → ℝ) → ℝ → ℝ → (ℕ → ℕ → ℝ) → ℝ → ℕ → Fin 6 → ℝ

/-- The raw parameter array `T const* const*` handed to `operator()`:
block index ↦ offset ↦ scalar. -/
def GyroParams : Type := ℕ → ℕ → ℝ

/-- The control-point window sliced by `operator()`: the map
`all_control_points` is built (column-major, as Eigen stores it) over the
parameter block at `kSensorRigPoseSplineControlPointsIndex`, and the block
starting at row `spline_index` is taken. -/
def gyroControlPoints (params : GyroParams) (tep : TrajectoryEvaluationParams) :
    ℕ → ℕ → ℝ :=
  fun r c =>
    params GyroscopeParameterIndices.kSensorRigPoseSplineControlPointsIndex
      (c * tep.num_control_points + (tep.spline_index + r))

/-- The intrinsics block read by `operator()` (block `kIntrinsicsIndex`). -/
def gyroIntrinsics (params : GyroParams) : ℕ → ℝ :=
  params GyroscopeParameterIndices.kIntrinsicsIndex

/-- The extrinsics quaternion read by `operator()` (block
`kExtrinsicsRotationIndex`), in Eigen memory order x, y, z, w: the pair is
(w, imaginary part). -/
def gyroQuat (params : GyroParams) : ℝ × (Fin 3 → ℝ) :=
  (params GyroscopeParameterIndices.kExtrinsicsRotationIndex 3,
   fun i => params GyroscopeParameterIndices.kExtrinsicsRotationIndex i.1)

/-- The latency scalar read by `operator()` (block `kLatencyIndex`). -/
def gyroLatency (params : GyroParams) : ℝ :=
  params GyroscopeParameterIndices.kLatencyIndex 0

/-- The translation block read (and, in the source, never used afterwards)
by `operator()` (block `kExtrinsicsTranslationIndex`). -/
def gyroTranslation (params : GyroParams) : Fin 3 → ℝ :=
  fun i => params GyroscopeParameterIndices.kExtrinsicsTranslationIndex i.1

/-- `.head(3)` of a 6-vector. -/
def head3 (v : Fin 6 → ℝ) : Fin 3 → ℝ :=
  fun i => v (Fin.castLE (by omega) i)

/-- `skew(v)` from gyroscope_cost_functor.h: the cross-product matrix. -/
def skew (v : Fin 3 → ℝ) : Matrix (Fin 3) (Fin 3) ℝ :=
  !![0, -v 2, v 1; v 2, 0, -v 0; -v 1, v 0, 0]

/-- `phi.squaredNorm()` for a 3-vector. -/
noncomputable def so3ThetaSq (phi : Fin 3 → ℝ) : ℝ :=
  phi 0 ^ 2 + phi 1 ^ 2 + phi 2 ^ 2

/-- The coefficients `c1, c2` of the SO(3) right-Jacobian as computed by
`operator()`: `theta = sqrt(theta_sq)`, `theta_fo = theta_sq * theta_sq`; a
three-term Taylor expansion when `|theta| < 1e-7`, the closed form scaled by
`1 / theta_sq` otherwise. -/
noncomputable def so3Coeffs (theta_sq : ℝ) : ℝ × ℝ :=
  let theta := Real.sqrt theta_sq
  let theta_fo := theta_sq * theta_sq
  if |theta| < 1e-7 then
    (0.5 - theta_sq * (1 / 24) + theta_fo * (1 / 720),
     1 / 6 - theta_sq * (1 / 120) + theta_fo * (1 / 5040))
  else
    ((1 - Real.cos theta) * (1 / theta_sq),
     (1 - Real.sin theta / theta) * (1 / theta_sq))

/-- The SO(3) right-Jacobian as computed by `operator()`: `J` is initialized
to the identity and, when `theta_sq != 0`, incremented by
`c1 * skew(phi) + c2 * skew(phi) * skew(phi)`. -/
noncomputable def so3Jacobian (phi : Fin 3 → ℝ) : Matrix (Fin 3) (Fin 3) ℝ :=
  if so3ThetaSq phi = 0 then 1
  else
    1 + (so3Coeffs (so3ThetaSq phi)).1 • skew phi +
      (so3Coeffs (so3ThetaSq phi)).2 • (skew phi * skew phi)

/-- The 3-vector cross product (Eigen `cross`). -/
def cross3 (a b : Fin 3 → ℝ) : Fin 3 → ℝ :=
  ![a 1 * b 2 - a 2 * b 1, a 2 * b 0 - a 0 * b 2, a 0 * b 1 - a 1 * b 0]

/-- Eigen `Quaternion::inverse()`: the conjugate divided by the squared norm
when that norm is positive, and the zero quaternion otherwise. The pair is
(w, imaginary part). -/
noncomputable def quatInverse (q : ℝ × (Fin 3 → ℝ)) : ℝ × (Fin 3 → ℝ) :=
  let n := q.1 ^ 2 + q.2 0 ^ 2 + q.2 1 ^ 2 + q.2 2 ^ 2
  if 0 < n then (q.1 / n, fun i => -q.2 i / n) else (0, fun _ => 0)

/-- Applying a quaternion to a 3-vector, exactly as Eigen does for
`q * v` and for `(q * Matrix) * v`:
`v + w * (2 u x v) + u x (2 u x v)` with `u` the imaginary part. (For any
coefficients this agrees with `toRotationMatrix(q) * v`, so the source's
`(q.inverse() * J) * phi_dot` is `quatTransformVector (quatInverse q)
(J.mulVec phi_dot)`.) -/
noncomputable def quatTransformVector (q : ℝ × (Fin 3 → ℝ)) (v : Fin 3 → ℝ) :
    Fin 3 → ℝ :=
  fun i =>
    v i + q.1 * (2 * cross3 q.2 v i) + cross3 q.2 (fun j => 2 * cross3 q.2 v j) i

/-- The pose (derivative order 0) or pose rate (order 1) evaluated by
`operator()`: the B-spline evaluator applied to the sliced control points,
the knots, the basis matrix and the latency-shifted stamp. -/
noncomputable def gyroPose (bspline : BSplineEvalT) (params : GyroParams)
    (tep : TrajectoryEvaluationParams) (deriv : ℕ) : Fin 6 → ℝ :=
  bspline (gyroControlPoints params tep) tep.knot0 tep.knot1 tep.basis_matrix
    (tep.stamp - gyroLatency params) deriv

/-- `phi` in `operator()`: the negated rotational component of the pose. -/
noncomputable def gyroPhi (bspline : BSplineEvalT) (params : GyroParams)
    (tep : TrajectoryEvaluationParams) : Fin 3 → ℝ :=
  fun i => -(head3 (gyroPose bspline params tep 0) i)

/-- `phi_dot` in `operator()`: the negated rotational component of the pose
rate. -/
noncomputable def gyroPhiDot (bspline : BSplineEvalT) (params : GyroParams)
    (tep : TrajectoryEvaluationParams) : Fin 3 → ℝ :=
  fun i => -(head3 (gyroPose bspline params tep 1) i)

/-- `omega_sensor_world` in `operator()`:
`q_sensorrig_gyroscope.inverse() * J * phi_dot`. -/
noncomputable def gyroOmega (bspline : BSplineEvalT) (params : GyroParams)
    (tep : TrajectoryEvaluationParams) : Fin 3 → ℝ :=
  quatTransformVector (quatInverse (gyroQuat params))
    ((so3Jacobian (gyroPhi bspline params tep)).mulVec
      (gyroPhiDot bspline params tep))

/-- The angular velocity as the claim words it: the Jacobian applied to the
(non-negated) rotational component of the pose derivative, rotated by the
inverse extrinsics quaternion. Written from the claim for comparison with
`gyroOmega`, which is written from the source. -/
noncomputable def gyroOmegaClaimed (bspline : BSplineEvalT) (params : GyroParams)
    (tep : TrajectoryEvaluationParams) : Fin 3 → ℝ :=
  quatTransformVector (quatInverse (gyroQuat params))
    ((so3Jacobian (gyroPhi bspline params tep)).mulVec
      (head3 (gyroPose bspline params tep 1)))

/-- `GyroscopeCostFunctor::operator()`: evaluates the angular velocity,
projects it through the gyroscope model (`Project` returns a StatusOr,
modelled as an `Option`, and is abstracted since gyroscope_models.h is not
among the sources), and on success writes `measurement - projection` into the
residual and returns true; on failure returns false leaving the residual
(`res0`, the incoming contents of the output array) untouched. -/
noncomputable def gyroFunctor (bspline : BSplineEvalT)
    (project : (ℕ → ℝ) → (Fin 3 → ℝ) → Option (Fin 3 → ℝ))
    (params : GyroParams) (tep : TrajectoryEvaluationParams)
    (measurement : Fin 3 → ℝ) (res0 : Fin 3 → ℝ) : Bool × (Fin 3 → ℝ) :=
  match project (gyroIntrinsics params) (gyroOmega bspline params tep) with
  | some p => (true, fun i => measurement i - p i)
  | none => (false, res0)

/-- The concrete B-spline evaluator used for counterexample evaluations:
pose identically zero, pose rate the first basis vector. -/
def bsplineCE : BSplineEvalT :=
  fun _ _ _ _ _ d i => if d = 1 ∧ i.1 = 0 then 1 else 0

/-- The concrete parameter array used for counterexample evaluations: the
extrinsics quaternion is the identity (w = 1 at offset 3 of block 1),
everything else zero. -/
def paramsCE : GyroParams :=
  fun b o => if b = 1 ∧ o = 3 then 1 else 0

/-- A concrete observation id used in witness evaluations. -/
def oidW : ObservationId :=
  { stamp := FP64.val 0, image_id := 1, model_id := 0, feature_id := 5 }

/-- A concrete measurement used in witness evaluations. -/
def mW : CameraMeasurement :=
  { pixel := (FP64.val 320, FP64.val 240), id := oidW }

/-- A concrete camera whose store already holds `mW`. -/
def camW : Camera :=
  { camera_model := none, id_to_measurement := [(oidW, mW)] }

/-- A concrete observation id with a NaN stamp. -/
def oidN : ObservationId :=
  { stamp := FP64.nan, image_id := 1, model_id := 0, feature_id := 5 }

/-- A concrete gyroscope-model projection that always succeeds with the
constant vector 5. -/
def projCE : (ℕ → ℝ) → (Fin 3 → ℝ) → Option (Fin 3 → ℝ) :=
  fun _ _ => some fun _ => 5

/- ------------------------------------------------------------------ -/
/- Theorems.                                                           -/
/- ------------------------------------------------------------------ -/

/-- Probing the store's key list is the same as probing the store. -/
theorem containsKey_map_fst (l : MeasurementStore) (oid : ObservationId) :
    ((l.map Prod.fst).any fun s => obsIdEq s oid) = containsKey l oid := by
  induction l with
  | nil => rfl
  | cons p t ih =>
    simp only [List.map_cons, List.any_cons, containsKey] at ih ⊢
    rw [ih]

/-- Sequencing `AddMeasurement` calls: the store grows by exactly the number
of submitted ids that are new with respect to both the initial store and the
earlier elements of the sequence. -/
theorem camera_addAll_length (ms : List CameraMeasurement) :
    ∀ cam : Camera,
      (cam.addAll ms).NumberOfMeasurements =
        cam.NumberOfMeasurements +
          countNewIds (ms.map fun m => m.id)
            (cam.id_to_measurement.map Prod.fst) := by
  induction ms with
  | nil =>
    intro cam
    simp [Camera.addAll, countNewIds]
  | cons m rest ih =>
    intro cam
    have hany : ((cam.id_to_measurement.map Prod.fst).any fun s => obsIdEq s m.id)
        = containsKey cam.id_to_measurement m.id := by
      exact containsKey_map_fst cam.id_to_measurement m.id
    have hunf : cam.addAll (m :: rest) = (cam.applyAdd m).addAll rest := rfl
    rw [hunf, List.map_cons]
    simp only [countNewIds, hany]
    cases h : containsKey cam.id_to_measurement m.id with
    | true =>
      have hstep : cam.applyAdd m = cam := by
        simp [Camera.applyAdd, Camera.AddMeasurement, h]
      rw [hstep, if_pos rfl, ih cam]
    | false =>
      have hstep : cam.applyAdd m =
          { cam with id_to_measurement := (m.id, m) :: cam.id_to_measurement } := by
        simp [Camera.applyAdd, Camera.AddMeasurement, h]
      rw [if_neg (by simp), hstep, ih]
      simp [Camera.NumberOfMeasurements]
      omega

/-- C7: for every sequence of `AddMeasurement` calls on a camera starting
from an empty store, `NumberOfMeasurements` equals the number of distinct
ids submitted (distinctness by the code's `operator==`); an `AddMeasurement`
whose id is already present returns DuplicateEntry and leaves the stored
measurements unchanged. -/
theorem camera_measurement_count_spec :
    (∀ ms : List CameraMeasurement,
      (Camera.addAll { camera_model := none, id_to_measurement := [] } ms).NumberOfMeasurements
        = countNewIds (ms.map fun m => m.id) []) ∧
    (∀ cam : Camera, ∀ m : CameraMeasurement,
      containsKey cam.id_to_measurement m.id = true →
        cam.AddMeasurement m = Except.error CalicoError.DuplicateEntry ∧
        cam.applyAdd m = cam) := by
  constructor
  · intro ms
    have h := camera_addAll_length ms
      { camera_model := none, id_to_measurement := [] }
    simpa [Camera.NumberOfMeasurements] using h
  · intro cam m h
    refine ⟨by simp [Camera.AddMeasurement, h], ?_⟩
    simp [Camera.applyAdd, Camera.AddMeasurement, h]

/-- Witness for C7 at a concrete store already holding the submitted id. -/
theorem camera_measurement_count_spec_witness :
    containsKey camW.id_to_measurement mW.id = true ∧
    (camW.AddMeasurement mW = Except.error CalicoError.DuplicateEntry ∧
      camW.applyAdd mW = camW) :=
  ⟨by decide, camera_measurement_count_spec.2 camW mW (by decide)⟩

/-- C9: `ObservationId` equality holds exactly when the four fields agree
pairwise (the `double` stamp compared as the code compares it, with IEEE
`==`), and the hash input consists of exactly those four fields, so ids that
compare equal have equal hash inputs and hence equal hashes. -/
theorem observation_id_equality_spec :
    (∀ a b : ObservationId,
      obsIdEq a b = true ↔
        (fp64Eq a.stamp b.stamp = true ∧ a.image_id = b.image_id ∧
          a.model_id = b.model_id ∧ a.feature_id = b.feature_id)) ∧
    (∀ a b : ObservationId,
      obsIdEq a b = true → obsIdHashInput a = obsIdHashInput b) := by
  have hiff : ∀ a b : ObservationId,
      obsIdEq a b = true ↔
        (fp64Eq a.stamp b.stamp = true ∧ a.image_id = b.image_id ∧
          a.model_id = b.model_id ∧ a.feature_id = b.feature_id) := by
    intro a b
    simp [obsIdEq, Bool.and_eq_true, beq_iff_eq, and_assoc]
  refine ⟨hiff, ?_⟩
  intro a b h
  obtain ⟨hs, hi, hm, hf⟩ := (hiff a b).1 h
  have hstamp : a.stamp = b.stamp := by
    cases ha : a.stamp with
    | nan =>
      cases hb : b.stamp with
      | nan => rfl
      | val y => rw [ha, hb] at hs; simp [fp64Eq] at hs
    | val x =>
      cases hb : b.stamp with
      | nan => rw [ha, hb] at hs; simp [fp64Eq] at hs
      | val y =>
        rw [ha, hb] at hs
        simp only [fp64Eq, beq_iff_eq] at hs
        rw [hs]
  simp [obsIdHashInput, hstamp, hi, hm, hf]

/-- Witness for C9 at a concrete pair of equal ids. -/
theorem observation_id_equality_spec_witness :
    obsIdEq oidW oidW = true ∧ obsIdHashInput oidW = obsIdHashInput oidW :=
  ⟨by decide, observation_id_equality_spec.2 oidW oidW (by decide)⟩

/-- C10: an `ObservationId` whose stamp is NaN compares unequal to itself,
because `operator==` uses IEEE comparison on the stamp; consequently no
store lookup keyed by such an id can ever match it. -/
theorem observation_id_nan_not_reflexive (a : ObservationId)
    (h : a.stamp = FP64.nan) :
    obsIdEq a a = false ∧
      ∀ store : MeasurementStore, containsKey store a = false := by
  have hfp : ∀ x : FP64, fp64Eq x FP64.nan = false := by
    intro x; cases x <;> rfl
  constructor
  · simp [obsIdEq, h, hfp]
  · intro store
    simp only [containsKey, List.any_eq_false]
    intro p _
    simp [obsIdEq, h, hfp]

/-- Witness for C10 at a concrete NaN-stamped id and a concrete store. -/
theorem observation_id_nan_not_reflexive_witness :
    obsIdEq oidN oidN = false ∧ containsKey [(oidW, mW)] oidN = false :=
  ⟨(observation_id_nan_not_reflexive oidN rfl).1,
   (observation_id_nan_not_reflexive oidN rfl).2 [(oidW, mW)]⟩

/-- C6: `CameraModel::Create` returns a concrete model instance exactly for
the recognized tags kOpenCv5 and kKannalaBrandt, and an absent (null) model
for any unrecognized tag; being a total function into `Option`, it never
signals a fault. -/
theorem camera_model_create_spec :
    CameraModel.Create CameraIntrinsicsModel.kOpenCv5
        = some CameraModel.OpenCv5Model ∧
    CameraModel.Create CameraIntrinsicsModel.kKannalaBrandt
        = some CameraModel.KannalaBrandtModel ∧
    (∀ t : ℤ,
      CameraModel.Create (CameraIntrinsicsModel.unrecognizedTag t) = none) ∧
    (∀ tag : CameraIntrinsicsModel,
      (CameraModel.Create tag).isSome = true ↔
        tag = CameraIntrinsicsModel.kOpenCv5 ∨
          tag = CameraIntrinsicsModel.kKannalaBrandt) := by
  refine ⟨rfl, rfl, fun t => rfl, fun tag => ?_⟩
  cases tag <;> simp [CameraModel.Create]

/-- C8: the `Project` overload without a time argument never fails — it is
the success branch of the failable overload run on every timestamp known to
the trajectory, and returns the empty list exactly where the failable
overload (whose only failure mode is an absent model) would error. -/
theorem camera_project_overload_asymmetry (cam : Camera)
    (synth : CameraModel → ℝ → List CameraMeasurement)
    (traj : TrajectoryModel) (times : List ℝ) :
    exceptIsOk (cam.Project synth times) = cam.camera_model.isSome ∧
    cam.ProjectAll synth traj =
      (match cam.Project synth traj.timestamps with
       | Except.ok l => l
       | Except.error _ => []) := by
  cases h : cam.camera_model <;>
    simp [Camera.Project, Camera.ProjectAll, exceptIsOk, h]

/-- C1 names the spec's five-block layout
`[intrinsics][rotation][translation][latency][control points]`, with the
control points immediately after latency at index 4. The source enum instead
places the control-point block at index 7, leaving indices 4–6 unused, and
`operator()` reads the control points from block 7 — a slip relative to the
layout documented for the factory. This theorem records the enum values,
the mismatch, and that the control-point slice reads block 7, not block 4. -/
theorem gyro_control_point_block_index_bug :
    GyroscopeParameterIndices.kIntrinsicsIndex = 0 ∧
    GyroscopeParameterIndices.kExtrinsicsRotationIndex = 1 ∧
    GyroscopeParameterIndices.kExtrinsicsTranslationIndex = 2 ∧
    GyroscopeParameterIndices.kLatencyIndex = 3 ∧
    GyroscopeParameterIndices.kSensorRigPoseSplineControlPointsIndex = 7 ∧
    GyroscopeParameterIndices.kSensorRigPoseSplineControlPointsIndex ≠
      GyroscopeParameterIndices.kLatencyIndex + 1 ∧
    gyroControlPoints (fun b _ => if b = 7 then 1 else 0) tepZero 0 0 = 1 ∧
    gyroControlPoints (fun b _ => if b = 4 then 1 else 0) tepZero 0 0 = 0 := by
  refine ⟨rfl, rfl, rfl, rfl, rfl, by decide, ?_, ?_⟩ <;>
    simp [gyroControlPoints, tepZero,
      GyroscopeParameterIndices.kSensorRigPoseSplineControlPointsIndex]

/-- C4: `operator()` writes the residual if and only if the model's `Project`
succeeds: on success the residual is `measurement - projection` and the
return value is true; on failure the return value is false and the residual
array keeps its incoming contents. -/
theorem gyro_residual_written_iff_projection_ok (bspline : BSplineEvalT)
    (project : (ℕ → ℝ) → (Fin 3 → ℝ) → Option (Fin 3 → ℝ))
    (params : GyroParams) (tep : TrajectoryEvaluationParams)
    (measurement res0 : Fin 3 → ℝ) :
    ((gyroFunctor bspline project params tep measurement res0).1 = true ↔
      project (gyroIntrinsics params) (gyroOmega bspline params tep) ≠ none) ∧
    (∀ p, project (gyroIntrinsics params) (gyroOmega bspline params tep) = some p →
      (gyroFunctor bspline project params tep measurement res0).2 =
        fun i => measurement i - p i) ∧
    (project (gyroIntrinsics params) (gyroOmega bspline params tep) = none →
      (gyroFunctor bspline project params tep measurement res0).2 = res0) := by
  cases h : project (gyroIntrinsics params) (gyroOmega bspline params tep) with
  | none => simp [gyroFunctor, h]
  | some p =>
    refine ⟨by simp [gyroFunctor, h], fun q hq => ?_, by simp [h]⟩
    injection hq with hpq
    subst hpq
    simp [gyroFunctor, h]

/-- Witness for C4 at a concrete always-succeeding projection. -/
theorem gyro_residual_written_iff_projection_ok_witness :
    projCE (gyroIntrinsics paramsCE) (gyroOmega bsplineCE paramsCE tepZero)
        = some (fun _ => 5) ∧
    (gyroFunctor bsplineCE projCE paramsCE tepZero (fun _ => 1) (fun _ => 9)).2 =
      fun i => (fun _ => (1 : ℝ)) i - (fun _ => (5 : ℝ)) i :=
  ⟨rfl, (gyro_residual_written_iff_projection_ok bsplineCE projCE paramsCE
      tepZero (fun _ => 1) (fun _ => 9)).2.1 (fun _ => 5) rfl⟩

/-- Unfolding the Jacobian in the small-angle branch: when the squared angle
is nonzero and the angle is below the 1e-7 switch, the coefficients are the
three-term Taylor polynomials in the squared angle — no division by the
squared angle occurs. -/
theorem so3Jacobian_taylor_form (phi : Fin 3 → ℝ) (h : so3ThetaSq phi ≠ 0)
    (hlt : |Real.sqrt (so3ThetaSq phi)| < 1e-7) :
    so3Jacobian phi =
      1 + (1 / 2 - so3ThetaSq phi / 24 + so3ThetaSq phi ^ 2 / 720) • skew phi +
        (1 / 6 - so3ThetaSq phi / 120 + so3ThetaSq phi ^ 2 / 5040) •
          (skew phi * skew phi) := by
  have hc : so3Coeffs (so3ThetaSq phi) =
      (1 / 2 - so3ThetaSq phi / 24 + so3ThetaSq phi ^ 2 / 720,
       1 / 6 - so3ThetaSq phi / 120 + so3ThetaSq phi ^ 2 / 5040) := by
    simp only [so3Coeffs]
    rw [if_pos hlt, Prod.mk.injEq]
    constructor
    · rw [show (0.5 : ℝ) = 1 / 2 by norm_num]; ring
    · ring
  rw [so3Jacobian, if_neg h, hc]

/-- Unfolding the Jacobian in the large-angle branch: at or above the 1e-7
switch the coefficients take their closed forms, dividing by the squared
angle. -/
theorem so3Jacobian_closed_form (phi : Fin 3 → ℝ) (h : so3ThetaSq phi ≠ 0)
    (hge : 1e-7 ≤ |Real.sqrt (so3ThetaSq phi)|) :
    so3Jacobian phi =
      1 + ((1 - Real.cos (Real.sqrt (so3ThetaSq phi))) / so3ThetaSq phi) • skew phi +
        ((1 - Real.sin (Real.sqrt (so3ThetaSq phi)) / Real.sqrt (so3ThetaSq phi)) /
            so3ThetaSq phi) • (skew phi * skew phi) := by
  have hc : so3Coeffs (so3ThetaSq phi) =
      ((1 - Real.cos (Real.sqrt (so3ThetaSq phi))) / so3ThetaSq phi,
       (1 - Real.sin (Real.sqrt (so3ThetaSq phi)) / Real.sqrt (so3ThetaSq phi)) /
          so3ThetaSq phi) := by
    simp only [so3Coeffs]
    rw [if_neg (not_lt.mpr hge), Prod.mk.injEq]
    constructor
    · ring
    · ring
  rw [so3Jacobian, if_neg h, hc]

/-- C2: for every rotation vector with nonzero angle, `operator()` computes
the SO(3) right-Jacobian `I + c1 skew(phi) + c2 skew(phi)^2`, with the
closed-form coefficients `c1 = (1 - cos theta)/theta^2`,
`c2 = (1 - sin theta / theta)/theta^2` at or above the 1e-7 angle switch,
and the three-term Taylor polynomials `c1 = 1/2 - theta^2/24 + theta^4/720`,
`c2 = 1/6 - theta^2/120 + theta^4/5040` below it — polynomials in the
squared angle, so the small-angle branch never divides by the squared
angle. -/
theorem so3_jacobian_branch_formulas (phi : Fin 3 → ℝ)
    (h : so3ThetaSq phi ≠ 0) :
    (|Real.sqrt (so3ThetaSq phi)| < 1e-7 →
      so3Jacobian phi =
        1 + (1 / 2 - so3ThetaSq phi / 24 + so3ThetaSq phi ^ 2 / 720) • skew phi +
          (1 / 6 - so3ThetaSq phi / 120 + so3ThetaSq phi ^ 2 / 5040) •
            (skew phi * skew phi)) ∧
    (1e-7 ≤ |Real.sqrt (so3ThetaSq phi)| →
      so3Jacobian phi =
        1 + ((1 - Real.cos (Real.sqrt (so3ThetaSq phi))) / so3ThetaSq phi) • skew phi +
          ((1 - Real.sin (Real.sqrt (so3ThetaSq phi)) / Real.sqrt (so3ThetaSq phi)) /
              so3ThetaSq phi) • (skew phi * skew phi)) :=
  ⟨so3Jacobian_taylor_form phi h, so3Jacobian_closed_form phi h⟩

/-- Witness for C2 at the concrete rotation vector (1, 0, 0), which takes
the closed-form branch. -/
theorem so3_jacobian_branch_formulas_witness :
    so3ThetaSq ![1, 0, 0] ≠ 0 ∧
    ((|Real.sqrt (so3ThetaSq ![1, 0, 0])| < 1e-7 →
      so3Jacobian ![1, 0, 0] =
        1 + (1 / 2 - so3ThetaSq ![1, 0, 0] / 24 + so3ThetaSq ![1, 0, 0] ^ 2 / 720) • skew ![1, 0, 0] +
          (1 / 6 - so3ThetaSq ![1, 0, 0] / 120 + so3ThetaSq ![1, 0, 0] ^ 2 / 5040) •
            (skew ![1, 0, 0] * skew ![1, 0, 0])) ∧
    (1e-7 ≤ |Real.sqrt (so3ThetaSq ![1, 0, 0])| →
      so3Jacobian ![1, 0, 0] =
        1 + ((1 - Real.cos (Real.sqrt (so3ThetaSq ![1, 0, 0]))) / so3ThetaSq ![1, 0, 0]) • skew ![1, 0, 0] +
          ((1 - Real.sin (Real.sqrt (so3ThetaSq ![1, 0, 0])) / Real.sqrt (so3ThetaSq ![1, 0, 0])) /
              so3ThetaSq ![1, 0, 0]) • (skew ![1, 0, 0] * skew ![1, 0, 0]))) := by
  have hne : so3ThetaSq ![(1 : ℝ), 0, 0] ≠ 0 := by
    show ((1 : ℝ) ^ 2 + 0 ^ 2 + 0 ^ 2) ≠ 0
    norm_num
  exact ⟨hne, so3_jacobian_branch_formulas ![1, 0, 0] hne⟩

/-- C3: the Jacobian is continuous across the small-angle switch: at angle 0
the code short-circuits to the identity, at angle 1e-8 it takes the Taylor
branch (whose coefficients are polynomials in the squared angle, so no
division by a near-zero quantity occurs), and every entry of the two
Jacobians agrees within 1e-8 — the truncation tolerance of the series. -/
theorem so3_jacobian_switch_continuity :
    so3Jacobian ![0, 0, 0] = 1 ∧
    ∀ i j, |so3Jacobian ![1e-8, 0, 0] i j - so3Jacobian ![0, 0, 0] i j| ≤ 1e-8 := by
  have h0ts : so3ThetaSq ![(0 : ℝ), 0, 0] = 0 := by
    show ((0 : ℝ) ^ 2 + 0 ^ 2 + 0 ^ 2) = 0
    norm_num
  have hJ0 : so3Jacobian ![(0 : ℝ), 0, 0] = 1 := by
    rw [so3Jacobian, if_pos h0ts]
  have hts : so3ThetaSq ![(1e-8 : ℝ), 0, 0] = 1e-16 := by
    show (((1e-8 : ℝ)) ^ 2 + 0 ^ 2 + 0 ^ 2) = 1e-16
    norm_num
  have hne : so3ThetaSq ![(1e-8 : ℝ), 0, 0] ≠ 0 := by
    rw [hts]; norm_num
  have hsq : Real.sqrt (so3ThetaSq ![(1e-8 : ℝ), 0, 0]) = 1e-8 := by
    rw [hts, show ((1e-16 : ℝ)) = (1e-8 : ℝ) ^ 2 by norm_num]
    exact Real.sqrt_sq (by norm_num)
  have hlt : |Real.sqrt (so3ThetaSq ![(1e-8 : ℝ), 0, 0])| < 1e-7 := by
    rw [hsq, abs_of_nonneg (by norm_num : (0 : ℝ) ≤ 1e-8)]
    norm_num
  have hJ := so3Jacobian_taylor_form ![(1e-8 : ℝ), 0, 0] hne hlt
  rw [hts] at hJ
  refine ⟨hJ0, fun i j => ?_⟩
  rw [hJ, hJ0]
  fin_cases i <;> fin_cases j <;>
    simp only [skew, Matrix.add_apply, Matrix.smul_apply, Matrix.mul_apply,
      Matrix.one_apply, Fin.sum_univ_three, Matrix.cons_val', Matrix.cons_val_zero,
      Matrix.cons_val_one, Matrix.cons_val_two, Matrix.head_cons, Matrix.head_fin_const,
      Matrix.vecHead, Matrix.vecTail, Matrix.of_apply, Matrix.empty_val',
      Matrix.cons_val_fin_one, Function.comp_apply, Fin.succ_zero_eq_one,
      smul_eq_mul] <;>
    rw [show ∀ a b : ℝ, |a - b| ≤ 1e-8 ↔ -1e-8 ≤ a - b ∧ a - b ≤ 1e-8 from
      fun a b => abs_le] <;>
    constructor <;> norm_num

/-- The cross product is odd in its second argument. -/
theorem cross3_neg_right (u v : Fin 3 → ℝ) :
    cross3 u (fun i => -(v i)) = fun i => -(cross3 u v i) := by
  funext i
  fin_cases i <;> simp [cross3] <;> ring

/-- The quaternion vector transform is odd in the vector argument. -/
theorem quatTransformVector_neg (q : ℝ × (Fin 3 → ℝ)) (v : Fin 3 → ℝ) :
    quatTransformVector q (fun i => -(v i)) =
      fun i => -(quatTransformVector q v i) := by
  funext i
  simp only [quatTransformVector]
  rw [cross3_neg_right]
  have h2 : (fun j => 2 * -(cross3 q.2 v j)) = fun j => -(2 * cross3 q.2 v j) := by
    funext j; ring
  rw [h2, cross3_neg_right]
  ring

/-- C5 as amended: `operator()` negates both the rotation vector and the
rotational component of the pose rate, so the computed angular velocity is
the claim's formula applied to the NEGATED pose-rate rotational component —
equivalently, the negation of `q⁻¹ (J φdot)` with `φdot` the (non-negated)
rotational component of the spline pose derivative. -/
theorem gyro_omega_negated_formula (bspline : BSplineEvalT) (params : GyroParams)
    (tep : TrajectoryEvaluationParams) :
    gyroOmega bspline params tep =
      fun i => -(gyroOmegaClaimed bspline params tep i) := by
  unfold gyroOmega gyroOmegaClaimed gyroPhiDot
  have hneg : (fun i => -(head3 (gyroPose bspline params tep 1) i))
      = -(head3 (gyroPose bspline params tep 1)) := rfl
  rw [hneg, Matrix.mulVec_neg]
  exact quatTransformVector_neg (quatInverse (gyroQuat params))
    ((so3Jacobian (gyroPhi bspline params tep)).mulVec
      (head3 (gyroPose bspline params tep 1)))

/-- Counterexample to C5 as stated: with identity extrinsics rotation, zero
pose and pose rate e1 (first basis vector), the code computes angular
velocity (-1, 0, 0) while the claim's formula
`q⁻¹ (J ⬝ rotational component of pose rate)` gives (1, 0, 0). -/
theorem gyro_omega_claim_counterexample :
    gyroOmega bsplineCE paramsCE tepZero 0 = -1 ∧
    gyroOmegaClaimed bsplineCE paramsCE tepZero 0 = 1 ∧
    gyroOmega bsplineCE paramsCE tepZero ≠ gyroOmegaClaimed bsplineCE paramsCE tepZero := by
  have hphi : gyroPhi bsplineCE paramsCE tepZero = fun _ => 0 := by
    funext i
    simp [gyroPhi, gyroPose, bsplineCE, head3]
  have h0 : so3ThetaSq (gyroPhi bsplineCE paramsCE tepZero) = 0 := by
    rw [hphi]
    show ((0 : ℝ) ^ 2 + 0 ^ 2 + 0 ^ 2) = 0
    norm_num
  have hJ : so3Jacobian (gyroPhi bsplineCE paramsCE tepZero) = 1 := by
    rw [so3Jacobian, if_pos h0]
  have hq : quatInverse (gyroQuat paramsCE) = (1, fun _ => 0) := by
    have h1 : gyroQuat paramsCE = (1, fun _ => 0) := by
      refine Prod.ext ?_ ?_
      · simp [gyroQuat, paramsCE, GyroscopeParameterIndices.kExtrinsicsRotationIndex]
      · funext i
        fin_cases i <;>
          simp [gyroQuat, paramsCE, GyroscopeParameterIndices.kExtrinsicsRotationIndex]
    rw [quatInverse, h1]
    norm_num
  have htv : ∀ w : Fin 3 → ℝ, quatTransformVector (1, fun _ => 0) w = w := by
    intro w
    funext i
    fin_cases i <;>
      simp [quatTransformVector, cross3]
  have hdotv : head3 (gyroPose bsplineCE paramsCE tepZero 1) 0 = 1 := by
    simp [gyroPose, bsplineCE, head3]
  have ha : gyroOmega bsplineCE paramsCE tepZero 0 = -1 := by
    rw [gyroOmega, hJ, Matrix.one_mulVec, hq, htv, gyroPhiDot, hdotv]
  have hb : gyroOmegaClaimed bsplineCE paramsCE tepZero 0 = 1 := by
    rw [gyroOmegaClaimed, hJ, Matrix.one_mulVec, hq, htv, hdotv]
  refine ⟨ha, hb, fun heq => ?_⟩
  have h := congrFun heq 0
  rw [ha, hb] at h
  norm_num at h
